import Mathlib

/-!
Shallow embedding of src/main.py (github-pages-directory-listing).

The program walks a directory tree, computes per-run totals (file count and
byte total, excluding files literally named "index.html"), and writes an
index.html listing into every directory that does not already contain one.

Modelling conventions:
  - The filesystem is an explicit inductive tree `FsDir`; a file is a name
    together with its content string and an mtime (epoch seconds).
  - Python integers are `Nat`; epoch timestamps are `Int`.
  - Fallible OS calls (`open`, `os.path.getmtime`) are modelled as lookups in
    explicit partial maps; a failed lookup yields `Except.error ()`, matching
    an uncaught Python exception (the source has no try/except around them).
  - Python string operations that the source uses (`split`, `replace`, `sort`,
    lexicographic comparison) are re-implemented on `List Char` so that every
    definition kernel-evaluates on concrete inputs.
  - `str(round(x, 2))` on a float `x = size / 1024^k`: for `size < 2^53` the
    quotient is an exact dyadic rational, CPython rounds it to the nearest
    multiple of 1/100 with ties to even, and `str` prints the shortest decimal
    form (trailing zeros dropped, at least one fractional digit).  This is
    modelled exactly by `roundHalfEven` / `formatCenti` below.
  - `os.walk('.')` is top-down; `dirnames.sort()` inside the generation branch
    makes the walk recurse into subdirectories in sorted order, while a skipped
    directory's children are visited in listing order.  The recursion is
    implemented with a depth fuel (`FsDir.height`) so that it is structural and
    kernel-evaluable; fuel never runs out when it is at least the tree height.
  - The icon table /src/icons.json, the template files and the /src/png icon
    directory are not part of src/; they enter as explicit parameters
    (`Env.data`, `Env.head`, `Env.foot`, `Env.png`).  Modelled from the spec:
    an icon rule is an extension list together with an icon name, matched by
    list membership, first rule wins.
-/

/-- Python `s.split(".")` on a char list: splits at every `'.'`, keeping empty
segments; the result is never empty. -/
def splitDot : List Char → List (List Char)
  | [] => [[]]
  | c :: rest =>
    let r := splitDot rest
    if c = '.' then [] :: r
    else match r with
      | [] => [[c]]
      | h :: t => (c :: h) :: t

/-- Lexicographic strict comparison of char lists by code point, as Python
compares strings. -/
def charListLt : List Char → List Char → Bool
  | [], [] => false
  | [], _ :: _ => true
  | _ :: _, [] => false
  | a :: as, b :: bs => if a.val < b.val then true else if b.val < a.val then false else charListLt as bs

/-- Python `a <= b` on strings (total order used by `list.sort()`). -/
def pyStrLe (a b : String) : Bool := ! charListLt b.data a.data

/-- Replacement engine for Python `str.replace`: scans left to right, replacing
every non-overlapping occurrence.  The fuel argument (instantiated with the
input length by `pyReplace`) only makes the recursion structural; one char is
consumed per step, so the fuel never runs out. -/
def replaceFuel (pat rep : List Char) : Nat → List Char → List Char
  | 0, l => l
  | _ + 1, [] => []
  | fuel + 1, c :: rest =>
    if pat ≠ [] ∧ pat.isPrefixOf (c :: rest)
    then rep ++ replaceFuel pat rep fuel ((c :: rest).drop pat.length)
    else c :: replaceFuel pat rep fuel rest

/-- Python `s.replace(pat, rep)`. -/
def pyReplace (s pat rep : String) : String := ⟨replaceFuel pat.data rep.data s.data.length s.data⟩

/-- Insertion step of a stable ascending sort by Python string order. -/
def insertSorted (x : String) : List String → List String
  | [] => [x]
  | y :: ys => if pyStrLe x y then x :: y :: ys else y :: insertSorted x ys

/-- Python `filenames.sort()`: stable ascending sort in code-point order. -/
def pySort (l : List String) : List String := l.foldr insertSorted []

/-- Insertion step for sorting subdirectory entries by name. -/
def insertEntry {α : Type} (x : String × α) : List (String × α) → List (String × α)
  | [] => [x]
  | y :: ys => if pyStrLe x.1 y.1 then x :: y :: ys else y :: insertEntry x ys

/-- Python `dirnames.sort()` lifted to (name, subtree) entries. -/
def pySortEntries {α : Type} (l : List (String × α)) : List (String × α) := l.foldr insertEntry []

/-- Round `num / den` to the nearest integer with ties to even, which is what
CPython's `round(x, 2)` does to the exact dyadic value `x * 100`. -/
def roundHalfEven (num den : Nat) : Nat :=
  let q := num / den
  let r := num % den
  if 2 * r < den then q
  else if den < 2 * r then q + 1
  else if q % 2 = 0 then q else q + 1

/-- Python `str(c / 100)` for the float holding the 2-decimal value `c / 100`:
shortest decimal form, trailing zeros dropped, at least one fractional digit. -/
def formatCenti (c : Nat) : String :=
  let ip := c / 100
  let fr := c % 100
  let fracStr :=
    if fr % 10 = 0 then toString (fr / 10)
    else if fr < 10 then "0" ++ toString fr
    else toString fr
  toString ip ++ "." ++ fracStr

/-- The four `return` statements of `get_file_size` (src/main.py:84-93) for a
numeric argument.  The source's `if/elif/elif/else` chain returns in every
branch, so this is always `some`; the trailing bare `return str(size)`
(src/main.py:95) is the `Option.getD` default in `get_file_size`. -/
def get_file_size_branches (size : Nat) : Option String :=
  if size < 1024 then some (toString size ++ " B")
  else if size < 1024 * 1024 then some (formatCenti (roundHalfEven (size * 100) 1024) ++ " KB")
  else if size < 1024 * 1024 * 1024 then some (formatCenti (roundHalfEven (size * 100) (1024 * 1024)) ++ " MB")
  else some (formatCenti (roundHalfEven (size * 100) (1024 * 1024 * 1024)) ++ " GB")

/-- Model of `get_file_size` (src/main.py:78-95) applied to a numeric total or
to the byte size obtained by statting a path (the string-argument branch only
performs that stat and then runs the same formatting chain). -/
def get_file_size (size : Nat) : String :=
  (get_file_size_branches size).getD (toString size)

/-- Modelled from the spec: one record of /src/icons.json (which is not under
src/): a list of extensions (each beginning with a dot) and an icon base name;
`get_icon_from_filename` scans these in order, first match wins. -/
structure IconRule where
  extension : List String
  icon : String
deriving DecidableEq

/-- The local `extension` computed in `get_icon_from_filename`
(src/main.py:151): a dot followed by the last `split(".")` segment.  Note that
no lowercasing happens and that a dotless filename yields `"." ++ filename`. -/
def extension (filename : String) : String :=
  "." ++ String.mk ((splitDot filename.data).getLastD [])

/-- Model of `get_icon_from_filename` (src/main.py:147-155). -/
def get_icon_from_filename (data : List IconRule) (filename : String) : String :=
  match data.find? (fun i => i.extension.contains (extension filename)) with
  | some i => i.icon ++ ".png"
  | none => "unknown.png"

/-- Standard base64 alphabet used by `base64.b64encode`. -/
def base64Alphabet : List Char :=
  "ABCDEFGHIJKLMNOPQRSTUVWXYZabcdefghijklmnopqrstuvwxyz0123456789+/".data

/-- Character of the base64 alphabet at a 6-bit index. -/
def b64Char (n : Nat) : Char := base64Alphabet.getD n 'A'

/-- Model of `base64.b64encode(..).decode('ascii')` on a byte list. -/
def b64encode : List Nat → String
  | [] => ""
  | [a] => String.mk [b64Char (a / 4), b64Char (a % 4 * 16), '=', '=']
  | [a, b] => String.mk [b64Char (a / 4), b64Char (a % 4 * 16 + b / 16), b64Char (b % 16 * 4), '=']
  | a :: b :: c :: rest =>
    String.mk [b64Char (a / 4), b64Char (a % 4 * 16 + b / 16), b64Char (b % 16 * 4 + c / 64), b64Char (c % 64)]
      ++ b64encode rest

/-- Model of `get_icon_base64` (src/main.py:139-144).  `png` maps a path under
/src/png to the bytes of that file when it exists; the source opens the file
with no exception handler, so a missing or unreadable icon file propagates as
`Except.error ()` (the uncaught `OSError`). -/
def get_icon_base64 (png : String → Option (List Nat)) (data : List IconRule) (filename : String) : Except Unit String :=
  match png ("/src/png/" ++ get_icon_from_filename data filename) with
  | none => Except.error ()
  | some bytes => Except.ok ("data:image/png;base64, " ++ b64encode bytes)

/-- Two-digit zero padding (`%m %d %H %M %S`). -/
def pad2 (n : Nat) : String := if n < 10 then "0" ++ toString n else toString n

/-- Civil date (year, month, day) from days since 1970-01-01, following the
standard era-based calendar algorithm used by C and Python date libraries. -/
def civilFromDays (z0 : Int) : Int × Nat × Nat :=
  let z := z0 + 719468
  let era : Int := z.fdiv 146097
  let doe : Nat := (z - era * 146097).toNat
  let yoe : Nat := (doe - doe / 1460 + doe / 36524 - doe / 146096) / 365
  let y : Int := (yoe : Int) + era * 400
  let doy : Nat := doe - (365 * yoe + yoe / 4 - yoe / 100)
  let mp : Nat := (5 * doy + 2) / 153
  let d : Nat := doy - (153 * mp + 2) / 5 + 1
  let m : Nat := if mp < 10 then mp + 3 else mp - 9
  (if m ≤ 2 then y + 1 else y, m, d)

/-- Rendering of a timestamp as `%Y-%m-%d %H:%M:%S`.  `datetime.fromtimestamp`
and `datetime.now` produce naive local time, so callers add the process's
UTC offset before formatting. -/
def formatLocalTime (t : Int) : String :=
  let days := t.fdiv 86400
  let rem : Nat := (t - days * 86400).toNat
  let c := civilFromDays days
  toString c.1 ++ "-" ++ pad2 c.2.1 ++ "-" ++ pad2 c.2.2 ++ " "
    ++ pad2 (rem / 3600) ++ ":" ++ pad2 (rem % 3600 / 60) ++ ":" ++ pad2 (rem % 60)

/-- Model of `get_file_modified_time` (src/main.py:98-102).  `mtimeOf` maps a
path to its stat mtime when the stat succeeds; the source has no exception
handler, so a failed stat propagates (`Except.error ()`).  The format string
ends in a literal `" UTC"` while `fromtimestamp` converts to local time
(offset `tzOffset` from UTC). -/
def get_file_modified_time (mtimeOf : String → Option Int) (tzOffset : Int) (filepath : String) : Except Unit String :=
  match mtimeOf filepath with
  | none => Except.error ()
  | some t => Except.ok (formatLocalTime (t + tzOffset) ++ " UTC")

/-- Foldername normalization performed by the recursive prelude of
`get_template_head` (src/main.py:109-113): a leading `"."` is rewritten to
`"/"`, and `"./"` prefixes collapse, so `"."` displays as `"/"` and
`"./sub"` as `"/sub"`.  The fuel (2*length+2 at the wrapper) only makes the
recursion structural; each step removes a char or replaces a leading dot by a
slash, after which the recursion stops. -/
def normalizeFolderAux : Nat → List Char → List Char
  | 0, l => l
  | fuel + 1, l =>
    match l with
    | '.' :: rest =>
      if rest.head? = some '/' then normalizeFolderAux fuel rest
      else normalizeFolderAux fuel ('/' :: rest)
    | _ => l

/-- Display form of a walk dirname (src/main.py:109-113). -/
def normalizeFolder (s : String) : String := ⟨normalizeFolderAux (2 * s.data.length + 2) s.data⟩

/-- Model of `get_template_head` (src/main.py:105-118).  `head` is the content
of /src/template/head.html (not under src/, hence a parameter). -/
def get_template_head (head : String) (foldername : String) : String :=
  pyReplace head "\x7b\x7bfoldername\x7d\x7d" (normalizeFolder foldername)

/-- Model of `get_template_foot` (src/main.py:121-136).  `foot` is the content
of /src/template/foot.html (not under src/).  The source calls
`dt.datetime.now()` inside this function, once per invocation, i.e. once per
generated page; the sampled naive local time arrives here as `now_t`. -/
def get_template_foot (foot : String) (now_t : Int) (total_files : Nat) (total_size : Nat) : String :=
  let f1 := pyReplace foot "\x7b\x7bbuildtime\x7d\x7d" ("at " ++ formatLocalTime now_t ++ " UTC")
  let f2 := pyReplace f1 "\x7b\x7btotalfiles\x7d\x7d" (toString total_files)
  pyReplace f2 "\x7b\x7btotalsize\x7d\x7d" (get_file_size total_size)

/-- A regular file: its content (size = UTF-8 byte count, as written by the
generator) and its stat mtime in epoch seconds. -/
structure FileEnt where
  content : String
  mtime : Int
deriving DecidableEq

/-- A directory tree: named files and named subdirectories, each list in the
order `os.scandir` happens to produce. -/
inductive FsDir where
  | mk (files : List (String × FileEnt)) (subdirs : List (String × FsDir))

/-- File entries of a directory. -/
def FsDir.files : FsDir → List (String × FileEnt)
  | .mk fs _ => fs

/-- Subdirectory entries of a directory. -/
def FsDir.subdirs : FsDir → List (String × FsDir)
  | .mk _ ds => ds

mutual
/-- Height of a directory tree (at least 1), used as walk fuel. -/
def FsDir.height : FsDir → Nat
  | .mk _ subdirs => heightList subdirs + 1

/-- Maximum height of a list of subdirectory entries. -/
def heightList : List (String × FsDir) → Nat
  | [] => 0
  | (_, d) :: rest => max d.height (heightList rest)
end

mutual
/-- Totals pass of `main` (src/main.py:35-42): count of files not literally
named "index.html" (comparison is case-sensitive `!=`) and the sum of their
byte sizes, over the whole tree. -/
def totalsWalk : FsDir → Nat × Nat
  | .mk files subdirs =>
    let kept := files.filter (fun p => p.1 ≠ "index.html")
    let rest := totalsList subdirs
    (kept.length + rest.1, (kept.map (fun p => p.2.content.utf8ByteSize)).sum + rest.2)

/-- Totals pass over a list of subdirectories. -/
def totalsList : List (String × FsDir) → Nat × Nat
  | [] => (0, 0)
  | (_, d) :: rest =>
    let a := totalsWalk d
    let b := totalsList rest
    (a.1 + b.1, a.2 + b.2)
end

/-- One generated index.html: the walk dirname it was written into, the sorted
filenames rendered as file rows, the substituted foot template, and the full
written content. -/
structure Page where
  dirname : String
  fileRows : List String
  footStr : String
  content : String
deriving DecidableEq

/-- External collaborators of a run: the two template files, the icon table,
the /src/png directory (total: every icon file referenced is readable — the
error path of `get_icon_base64` is studied separately), the successive values
returned by `dt.datetime.now()` (naive local time, one sample per generated
page, indexed by sample number), and the process's UTC offset. -/
structure Env where
  head : String
  foot : String
  data : List IconRule
  png : String → List Nat
  now : Nat → Int
  tz : Int

/-- Data URI produced by `get_icon_base64` when the icon file is readable. -/
def icon64 (env : Env) (filename : String) : String :=
  "data:image/png;base64, " ++ b64encode (env.png ("/src/png/" ++ get_icon_from_filename env.data filename))

/-- Parent-directory row (src/main.py:54-55), emitted when dirname is not the
root; no trailing newline in the source. -/
def parentRow (env : Env) : String :=
  "<tr class=\"w-2/4 bg-gray-800 dark:bg-gray-900 border-b border-gray-600 hover:bg-gray-700 dark:hover:bg-gray-800\"><th scope=\"row\" class=\"py-2 px-2 lg:px-6 font-medium text-gray-300 dark:text-gray-400 whitespace-nowrap flex align-middle\"><img style=\"max-width:23px; margin-right:5px\" src=\""
    ++ icon64 env "o.folder-home" ++ "\"/>"
    ++ "<a class=\"my-auto text-blue-400 dark:text-blue-500\" href=\"../\">../</a></th><td>-</td><td>-</td></tr>"

/-- Subdirectory row (src/main.py:59-61). -/
def dirRow (env : Env) (subdirname : String) : String :=
  "<tr class=\"w-1/4 bg-gray-800 dark:bg-gray-900 border-b border-gray-600 hover:bg-gray-700 dark:hover:bg-gray-800\"><th scope=\"row\" class=\"py-2 px-2 lg:px-6 font-medium text-gray-300 dark:text-gray-400 whitespace-nowrap flex align-middle\"><img style=\"max-width:23px; margin-right:5px\" src=\""
    ++ icon64 env "o.folder" ++ "\"/>"
    ++ "<a class=\"my-auto text-blue-400 dark:text-blue-500\" href=\"" ++ subdirname ++ "/\">"
    ++ subdirname ++ "/</a></th><td>-</td><td>-</td></tr>\n"

/-- File entry as found in the current directory listing; the `path` built at
src/main.py:66 stats exactly this entry, so size and mtime come from it. -/
def lookupFile (files : List (String × FileEnt)) (n : String) : FileEnt :=
  ((files.find? (fun p => p.1 == n)).map (fun p => p.2)).getD ⟨"", 0⟩

/-- File row (src/main.py:67-68): icon, link, `get_file_size(path)` and
`get_file_modified_time(path)` on the statted entry. -/
def fileRow (env : Env) (filename : String) (ent : FileEnt) : String :=
  "<tr class=\"w-1/4 bg-gray-800 dark:bg-gray-900 border-b border-gray-600 hover:bg-gray-700 dark:hover:bg-gray-800\"><th scope=\"row\" class=\"py-2 px-2 lg:px-6 font-medium text-gray-300 dark:text-gray-400 whitespace-nowrap flex align-middle\"><img style=\"max-width:23px; margin-right:5px\" src=\""
    ++ icon64 env filename ++ "\"/>"
    ++ "<a class=\"my-auto text-blue-400 dark:text-blue-500\" href=\"" ++ filename ++ "\">"
    ++ filename ++ "</a></th><td>"
    ++ get_file_size ent.content.utf8ByteSize ++ "</td><td>"
    ++ (formatLocalTime (ent.mtime + env.tz) ++ " UTC") ++ "</td></tr>\n"

/-- Sequential walk over sibling subdirectories: thread the updated tree, the
generated pages and the clock-sample counter through `w`, the walk of a single
subdirectory at the next depth. -/
def walkListWith (w : String → FsDir → Nat → FsDir × List Page × Nat) (dirname : String) :
    List (String × FsDir) → Nat → List (String × FsDir) × List Page × Nat
  | [], tick => ([], [], tick)
  | (n, d) :: rest, tick =>
    let r1 := w (dirname ++ "/" ++ n) d tick
    let r2 := walkListWith w dirname rest r1.2.2
    ((n, r1.1) :: r2.1, r1.2.1 ++ r2.2.1, r2.2.2)

/-- The page generated for one directory (src/main.py:50-70): head with the
normalized dirname, the parent row when the directory is not the walk root,
one row per sorted subdirectory name, one row per sorted filename, and the
foot built from the run totals and one `datetime.now()` sample. -/
def pageFor (env : Env) (tf ts : Nat) (dirname : String) (files : List (String × FileEnt)) (subdirs : List (String × FsDir)) (tick : Nat) : Page :=
  let sortedF := pySort (files.map Prod.fst)
  let footStr := get_template_foot env.foot (env.now tick) tf ts
  let body := get_template_head env.head dirname
    ++ (if dirname ≠ "." then parentRow env else "")
    ++ String.join (((pySortEntries subdirs).map Prod.fst).map (dirRow env))
    ++ String.join (sortedF.map (fun fn => fileRow env fn (lookupFile files fn)))
  ⟨dirname, sortedF, footStr, body ++ footStr⟩

/-- Rendering pass of `main` (src/main.py:45-72) on the subtree rooted at walk
path `dirname`.  If the directory already contains "index.html" it is skipped
and its children are visited in listing order; otherwise dirnames and
filenames are sorted, the page is assembled and written as "index.html" into
the directory (consuming one `datetime.now()` sample), and the children are
visited in sorted order, `dirnames.sort()` being in-place.  `fuel` bounds the
recursion depth; it is exact whenever it is at least the tree height, and
`run` instantiates it with the tree height. -/
def walkRender (env : Env) (tf ts : Nat) : Nat → String → FsDir → Nat → FsDir × List Page × Nat
  | 0, _, d, tick => (d, [], tick)
  | fuel + 1, dirname, .mk files subdirs, tick =>
    if "index.html" ∈ files.map Prod.fst then
      let r := walkListWith (walkRender env tf ts fuel) dirname subdirs tick
      (.mk files r.1, r.2.1, r.2.2)
    else
      let page := pageFor env tf ts dirname files subdirs tick
      let r := walkListWith (walkRender env tf ts fuel) dirname (pySortEntries subdirs) (tick + 1)
      (.mk (files ++ [("index.html", ⟨page.content, env.now tick⟩)]) r.1, page :: r.2.1, r.2.2)

/-- One full run over a tree rooted at `'.'`: the totals pass followed by the
rendering pass (src/main.py:35-72). -/
def run (env : Env) (tree : FsDir) : FsDir × List Page × Nat :=
  let t := totalsWalk tree
  walkRender env t.1 t.2 tree.height "." tree 0

/-- Observable outcome of `main` (src/main.py:16-75): either an early
`sys.exit` with the printed diagnostic, or a completed run. -/
inductive RunOutcome where
  | exited (msg : String)
  | completed (tree : FsDir) (pages : List Page) (ticks : Nat) (total_files : Nat) (total_size : Nat)

namespace MainPy

/-- Model of the argument handling and pipeline of the source's `main`
(src/main.py:23-72): with at most one argv entry the program prints
"No directory specified" and exits before any traversal; otherwise
`os.chdir(sys.argv[1])` must succeed (`target` is the directory tree at that
path, `none` when the chdir fails). -/
def main (env : Env) (argv : List String) (target : Option FsDir) : RunOutcome :=
  if argv.length > 1 then
    match target with
    | none => RunOutcome.exited "Cannot change the current working directory"
    | some tree =>
      let t := totalsWalk tree
      let r := walkRender env t.1 t.2 tree.height "." tree 0
      RunOutcome.completed r.1 r.2.1 r.2.2 t.1 t.2
  else RunOutcome.exited "No directory specified"

end MainPy

mutual
/-- Every directory of the tree (root included) contains a file literally
named "index.html". -/
def allIndexed : FsDir → Bool
  | .mk files subdirs => decide ("index.html" ∈ files.map Prod.fst) && allIndexedList subdirs

/-- List version of `allIndexed`. -/
def allIndexedList : List (String × FsDir) → Bool
  | [] => true
  | (_, d) :: rest => allIndexed d && allIndexedList rest
end

mutual
/-- Removal of every file literally named "index.html" from a tree. -/
def pruneIndex : FsDir → FsDir
  | .mk files subdirs => .mk (files.filter (fun p => p.1 ≠ "index.html")) (pruneIndexList subdirs)

/-- List version of `pruneIndex`. -/
def pruneIndexList : List (String × FsDir) → List (String × FsDir)
  | [] => []
  | (n, d) :: rest => (n, pruneIndex d) :: pruneIndexList rest
end

/-- A small concrete environment: minimal templates, empty icon table, empty
icon files, a wall clock that advances by one second per sample, UTC process
timezone. -/
def tickingEnv : Env :=
  ⟨"H:\x7b\x7bfoldername\x7d\x7d;", "F:\x7b\x7bbuildtime\x7d\x7d;\x7b\x7btotalfiles\x7d\x7d;\x7b\x7btotalsize\x7d\x7d",
   [], fun _ => [], fun k => (k : Int), 0⟩

/-- The same environment with a frozen wall clock. -/
def frozenEnv : Env :=
  ⟨"H:\x7b\x7bfoldername\x7d\x7d;", "F:\x7b\x7bbuildtime\x7d\x7d;\x7b\x7btotalfiles\x7d\x7d;\x7b\x7btotalsize\x7d\x7d",
   [], fun _ => [], fun _ => (5 : Int), 0⟩

/-- A root with one empty subdirectory and no index.html anywhere: a run
generates two pages. -/
def twoDirTree : FsDir := .mk [] [("sub", .mk [] [])]

/-- A root holding a single file whose name matches "index.html" only
case-insensitively. -/
def upperIndexTree : FsDir := .mk [("INDEX.HTML", ⟨"hello", 123⟩)] []

/-- A root that already contains an index.html, plus one empty subdirectory. -/
def preIndexedTree : FsDir := .mk [("index.html", ⟨"OLD", 0⟩)] [("sub", .mk [] [])]

/-! Helper lemmas. -/

theorem not_suffix_of_suffix {a b x : List Char} (ha : a <:+ x) (hab : ¬ a <:+ b) (hba : ¬ b <:+ a) : ¬ b <:+ x :=
  fun hb => (List.suffix_or_suffix_of_suffix hb ha).elim hba hab

theorem append_data_suffix (s u : String) : u.data <:+ (s ++ u).data := by
  rw [String.data_append]
  exact List.suffix_append _ _

theorem only_unit_suffix {s u u' : String} (h : ¬ u'.data <:+ u.data) (h2 : ¬ u.data <:+ u'.data) :
    ¬ u'.data <:+ (s ++ u).data :=
  not_suffix_of_suffix (append_data_suffix s u) h2 h

theorem get_file_size_branches_isSome (size : Nat) : (get_file_size_branches size).isSome = true := by
  unfold get_file_size_branches
  split
  · rfl
  · split
    · rfl
    · split
      · rfl
      · rfl

theorem get_file_size_unit (size : Nat) :
    (size < 1024 ∧ ∃ s, get_file_size size = s ++ " B")
    ∨ ((1024 ≤ size ∧ size < 1024 * 1024) ∧ ∃ s, get_file_size size = s ++ " KB")
    ∨ ((1024 * 1024 ≤ size ∧ size < 1024 * 1024 * 1024) ∧ ∃ s, get_file_size size = s ++ " MB")
    ∨ ((1024 * 1024 * 1024 ≤ size) ∧ ∃ s, get_file_size size = s ++ " GB") := by
  unfold get_file_size get_file_size_branches
  by_cases h1 : size < 1024
  · exact Or.inl ⟨h1, toString size, by simp [h1]⟩
  · by_cases h2 : size < 1024 * 1024
    · exact Or.inr (Or.inl ⟨⟨by omega, h2⟩, formatCenti (roundHalfEven (size * 100) 1024), by simp [h1, h2]⟩)
    · by_cases h3 : size < 1024 * 1024 * 1024
      · exact Or.inr (Or.inr (Or.inl ⟨⟨by omega, h3⟩, formatCenti (roundHalfEven (size * 100) (1024 * 1024)), by simp [h1, h2, h3]⟩))
      · exact Or.inr (Or.inr (Or.inr ⟨by omega, formatCenti (roundHalfEven (size * 100) (1024 * 1024 * 1024)), by simp [h1, h2, h3]⟩))

/-- C3 counterexample: the code renders 1024 bytes as "1.0 KB" (Python
`str(round(1.0, 2))` has no trailing zero), not "1.00 KB" as the claim's
"exactly 2 decimal places" requires. -/
theorem C3_counterexample : get_file_size 1024 = "1.0 KB" ∧ "1.0 KB" ≠ "1.00 KB" :=
  ⟨rfl, by decide⟩

/-- C3 (amended): size thresholds are binary (1024-based) — the " KB" suffix
appears exactly for 1024 ≤ n < 1024² — and KB/MB/GB values carry at most two
decimal places with trailing zeros dropped; in particular
formatSize(1023) = "1023 B", formatSize(1024) = "1.0 KB" and
formatSize(1024³) = "1.0 GB". -/
theorem C3_size_format_amended :
    get_file_size 1023 = "1023 B"
    ∧ get_file_size 1024 = "1.0 KB"
    ∧ get_file_size (1024 * 1024 * 1024) = "1.0 GB"
    ∧ ∀ n : Nat, (" KB".data <:+ (get_file_size n).data ↔ 1024 ≤ n ∧ n < 1024 * 1024) := by
  refine ⟨rfl, rfl, rfl, fun n => ⟨?_, ?_⟩⟩
  · intro hsuf
    rcases get_file_size_unit n with ⟨h, s, hs⟩ | ⟨h, s, hs⟩ | ⟨h, s, hs⟩ | ⟨h, s, hs⟩
    · rw [hs] at hsuf
      exact absurd hsuf (only_unit_suffix (by decide) (by decide))
    · exact h
    · rw [hs] at hsuf
      exact absurd hsuf (only_unit_suffix (by decide) (by decide))
    · rw [hs] at hsuf
      exact absurd hsuf (only_unit_suffix (by decide) (by decide))
  · intro hrange
    rcases get_file_size_unit n with ⟨h, s, hs⟩ | ⟨h, s, hs⟩ | ⟨h, s, hs⟩ | ⟨h, s, hs⟩
    · omega
    · rw [hs]
      exact append_data_suffix s " KB"
    · omega
    · omega

/-- C10: for every byte count the result of get_file_size ends in exactly one
of the four unit suffixes, and the branch chain always returns (the trailing
bare `return str(size)` is unreachable). -/
theorem C10_branch_totality :
    ∀ size : Nat, (get_file_size_branches size).isSome = true
      ∧ ∃! u : String, u ∈ ([" B", " KB", " MB", " GB"] : List String) ∧ u.data <:+ (get_file_size size).data := by
  intro size
  refine ⟨get_file_size_branches_isSome size, ?_⟩
  rcases get_file_size_unit size with ⟨h, s, hs⟩ | ⟨h, s, hs⟩ | ⟨h, s, hs⟩ | ⟨h, s, hs⟩ <;> rw [hs]
  · refine ⟨" B", ⟨by decide, append_data_suffix s " B"⟩, ?_⟩
    rintro u' ⟨hmem, hsuf⟩
    simp only [List.mem_cons, List.not_mem_nil, or_false] at hmem
    rcases hmem with rfl | rfl | rfl | rfl
    · rfl
    · exact absurd hsuf (only_unit_suffix (by decide) (by decide))
    · exact absurd hsuf (only_unit_suffix (by decide) (by decide))
    · exact absurd hsuf (only_unit_suffix (by decide) (by decide))
  · refine ⟨" KB", ⟨by decide, append_data_suffix s " KB"⟩, ?_⟩
    rintro u' ⟨hmem, hsuf⟩
    simp only [List.mem_cons, List.not_mem_nil, or_false] at hmem
    rcases hmem with rfl | rfl | rfl | rfl
    · exact absurd hsuf (only_unit_suffix (by decide) (by decide))
    · rfl
    · exact absurd hsuf (only_unit_suffix (by decide) (by decide))
    · exact absurd hsuf (only_unit_suffix (by decide) (by decide))
  · refine ⟨" MB", ⟨by decide, append_data_suffix s " MB"⟩, ?_⟩
    rintro u' ⟨hmem, hsuf⟩
    simp only [List.mem_cons, List.not_mem_nil, or_false] at hmem
    rcases hmem with rfl | rfl | rfl | rfl
    · exact absurd hsuf (only_unit_suffix (by decide) (by decide))
    · exact absurd hsuf (only_unit_suffix (by decide) (by decide))
    · rfl
    · exact absurd hsuf (only_unit_suffix (by decide) (by decide))
  · refine ⟨" GB", ⟨by decide, append_data_suffix s " GB"⟩, ?_⟩
    rintro u' ⟨hmem, hsuf⟩
    simp only [List.mem_cons, List.not_mem_nil, or_false] at hmem
    rcases hmem with rfl | rfl | rfl | rfl
    · exact absurd hsuf (only_unit_suffix (by decide) (by decide))
    · exact absurd hsuf (only_unit_suffix (by decide) (by decide))
    · exact absurd hsuf (only_unit_suffix (by decide) (by decide))
    · rfl

theorem splitDot_no_dot : ∀ l : List Char, '.' ∉ l → splitDot l = [l] := by
  intro l h
  induction l with
  | nil => rfl
  | cons c rest ih =>
    simp only [List.mem_cons, not_or] at h
    obtain ⟨h1, h2⟩ := h
    unfold splitDot
    rw [ih h2]
    have hc : ¬ c = '.' := fun hc => h1 hc.symm
    simp [hc]

/-- C4 counterexample: with an unreadable icon directory the generator raises
(the claim says a fixed embedded placeholder is returned for every filename
instead of raising). -/
theorem C4_counterexample : get_icon_base64 (fun _ => none) [] "x.xyz" = Except.error () := rfl

/-- C4 (amended): when no icon rule matches, the icon FILE name falls back to
"unknown.png", which is then read from disk like any other icon; and
get_icon_base64 fails (the uncaught open error propagates, aborting the
generator) exactly when that icon file is unreadable — there is no embedded
placeholder image. -/
theorem C4_icon_error_amended :
    ∀ (png : String → Option (List Nat)) (data : List IconRule) (filename : String),
      ((get_icon_base64 png data filename = Except.error ()) ↔
        png ("/src/png/" ++ get_icon_from_filename data filename) = none)
      ∧ ((∀ r ∈ data, extension filename ∉ r.extension) →
          get_icon_from_filename data filename = "unknown.png") := by
  intro png data filename
  constructor
  · unfold get_icon_base64
    cases hp : png ("/src/png/" ++ get_icon_from_filename data filename) with
    | none => simp
    | some b => simp
  · intro hall
    unfold get_icon_from_filename
    have hnone : data.find? (fun i => i.extension.contains (extension filename)) = none := by
      rw [List.find?_eq_none]
      intro r hr
      simpa using hall r hr
    rw [hnone]

theorem C4_witness : get_icon_from_filename [] "x.xyz" = "unknown.png" :=
  (C4_icon_error_amended (fun _ => none) [] "x.xyz").2 (by simp)

/-- C5 counterexample: the derived extension is not lowercased
(".TXT", not ".txt"), a dotless filename derives "." ++ filename rather than
the empty string, and consequently a dotless filename need not resolve to the
unknown icon: "txt" derives ".txt" and matches a .txt rule. -/
theorem C5_counterexample :
    extension "A.TXT" = ".TXT" ∧ ".TXT" ≠ ".txt"
    ∧ extension "README" = ".README" ∧ ".README" ≠ ""
    ∧ get_icon_from_filename [⟨[".txt"], "text"⟩] "txt" = "text.png"
    ∧ "text.png" ≠ "unknown.png" :=
  ⟨rfl, by decide, rfl, by decide, rfl, by decide⟩

/-- C5 (amended): the extension used for icon lookup is a dot followed by the
last dot-separated segment, with no lowercasing; for a filename containing no
dot this is "." ++ filename, and such a filename resolves to the unknown icon
whenever no rule's extension list contains "." ++ filename. -/
theorem C5_extension_amended :
    ∀ (data : List IconRule) (f : String), '.' ∉ f.data →
      extension f = "." ++ f
      ∧ ((∀ r ∈ data, ("." ++ f) ∉ r.extension) → get_icon_from_filename data f = "unknown.png") := by
  intro data f hf
  have hext : extension f = "." ++ f := by
    unfold extension
    rw [splitDot_no_dot f.data hf]
    cases f with
    | mk l => rfl
  refine ⟨hext, fun hall => ?_⟩
  unfold get_icon_from_filename
  have hnone : data.find? (fun i => i.extension.contains (extension f)) = none := by
    rw [List.find?_eq_none]
    intro r hr
    simp only [hext]
    simpa using hall r hr
  rw [hnone]

theorem C5_witness :
    extension "README" = "." ++ "README" ∧ get_icon_from_filename [] "README" = "unknown.png" :=
  ⟨(C5_extension_amended [] "README" (by decide)).1,
   (C5_extension_amended [] "README" (by decide)).2 (by simp)⟩

/-- C6 counterexample: the sentinel name "o.folder" does consult the extension
table — with an empty table it resolves to "unknown.png", not to
"o.folder.png", so the result is not independent of the table's contents. -/
theorem C6_counterexample :
    get_icon_from_filename [] "o.folder" = "unknown.png"
    ∧ "unknown.png" ≠ "o.folder" ++ ".png"
    ∧ get_icon_from_filename [] "o.folder-home" = "unknown.png"
    ∧ "unknown.png" ≠ "o.folder-home" ++ ".png" :=
  ⟨rfl, by decide, rfl, by decide⟩

/-- C6 (amended): the sentinel names "o.folder-home" and "o.folder" go through
the ordinary extension-table scan with derived extensions ".folder-home" and
".folder"; they resolve to the identically-named icon file plus ".png" when
the table maps those extensions to identically-named icons (as the shipped
icons.json does), and to "unknown.png" under an empty table — the result
depends on the table. -/
theorem C6_sentinel_amended :
    get_icon_from_filename [⟨[".folder-home"], "o.folder-home"⟩, ⟨[".folder"], "o.folder"⟩] "o.folder-home" = "o.folder-home.png"
    ∧ get_icon_from_filename [⟨[".folder-home"], "o.folder-home"⟩, ⟨[".folder"], "o.folder"⟩] "o.folder" = "o.folder.png"
    ∧ get_icon_from_filename [] "o.folder-home" = "unknown.png"
    ∧ get_icon_from_filename [] "o.folder" = "unknown.png" :=
  ⟨rfl, rfl, rfl, rfl⟩

/-- C7 counterexample: when the stat fails, get_file_modified_time raises (the
uncaught OSError propagates); it does not return the literal "-" the claim
describes. -/
theorem C7_counterexample : get_file_modified_time (fun _ => none) 0 "somefile" = Except.error () := rfl

/-- C7 (amended): the mtime is rendered as 'YYYY-MM-DD HH:MM:SS UTC' in the
process-local timezone (datetime.fromtimestamp; the " UTC" is a literal in the
format string, so a non-UTC process timezone mislabels the time), and a failed
stat propagates the exception instead of producing "-". -/
theorem C7_mtime_amended :
    get_file_modified_time (fun _ => none) 0 "f" = Except.error ()
    ∧ get_file_modified_time (fun _ => some 0) 0 "f" = Except.ok "1970-01-01 00:00:00 UTC"
    ∧ get_file_modified_time (fun _ => some 0) 3600 "f" = Except.ok "1970-01-01 01:00:00 UTC"
    ∧ ("1970-01-01 01:00:00 UTC" : String) ≠ "1970-01-01 00:00:00 UTC" :=
  ⟨rfl, rfl, rfl, by decide⟩

/-- C8 counterexample: invoked with no path argument over an existing working
directory, the program prints "No directory specified" and exits — it does not
fall back to the current working directory and does not run the pipeline. -/
theorem C8_counterexample :
    MainPy.main tickingEnv ["program"] (some (FsDir.mk [("f", ⟨"x", 0⟩)] []))
      = RunOutcome.exited "No directory specified" := rfl

/-- C8 (amended): whenever argv carries no path argument, main exits with the
"No directory specified" diagnostic before any traversal or generation,
regardless of the environment and of the current working directory. -/
theorem C8_cli_amended :
    ∀ (env : Env) (argv : List String) (target : Option FsDir),
      argv.length ≤ 1 → MainPy.main env argv target = RunOutcome.exited "No directory specified" := by
  intro env argv target h
  unfold MainPy.main
  rw [if_neg (by omega)]

theorem C8_witness :
    MainPy.main frozenEnv ["prog"] (some twoDirTree) = RunOutcome.exited "No directory specified" :=
  C8_cli_amended frozenEnv ["prog"] (some twoDirTree) (by decide)

theorem mem_insertSorted (x a : String) (l : List String) : a ∈ insertSorted x l ↔ a = x ∨ a ∈ l := by
  induction l with
  | nil => simp [insertSorted]
  | cons y ys ih =>
    unfold insertSorted
    split
    · simp [List.mem_cons]
    · simp only [List.mem_cons, ih]
      tauto

theorem mem_pySort (a : String) (l : List String) : a ∈ pySort l ↔ a ∈ l := by
  induction l with
  | nil => simp [pySort]
  | cons x xs ih =>
    unfold pySort at *
    simp only [List.foldr_cons]
    rw [mem_insertSorted]
    simp [ih]

theorem mem_insertEntry {α : Type} (x a : String × α) (l : List (String × α)) :
    a ∈ insertEntry x l ↔ a = x ∨ a ∈ l := by
  induction l with
  | nil => simp [insertEntry]
  | cons y ys ih =>
    unfold insertEntry
    split
    · simp [List.mem_cons]
    · simp only [List.mem_cons, ih]
      tauto

theorem mem_pySortEntries {α : Type} (a : String × α) (l : List (String × α)) :
    a ∈ pySortEntries l ↔ a ∈ l := by
  induction l with
  | nil => simp [pySortEntries]
  | cons x xs ih =>
    unfold pySortEntries at *
    simp only [List.foldr_cons]
    rw [mem_insertEntry]
    simp [ih]

theorem height_le_of_mem : ∀ (l : List (String × FsDir)) (n : String) (c : FsDir),
    (n, c) ∈ l → c.height ≤ heightList l := by
  intro l
  induction l with
  | nil => simp
  | cons hd tl ih =>
    obtain ⟨n0, d0⟩ := hd
    intro n c hm
    rcases List.mem_cons.mp hm with heq | hm2
    · cases heq
      simp only [heightList]
      exact Nat.le_max_left _ _
    · exact le_trans (ih n c hm2) (by simp only [heightList]; exact Nat.le_max_right _ _)

theorem walkListWith_pages_all {w : String → FsDir → Nat → FsDir × List Page × Nat} {dn : String} {P : Page → Prop} :
    ∀ (l : List (String × FsDir)) (t : Nat),
      (∀ n c, (n, c) ∈ l → ∀ t' q, q ∈ (w (dn ++ "/" ++ n) c t').2.1 → P q) →
      ∀ p ∈ (walkListWith w dn l t).2.1, P p := by
  intro l
  induction l with
  | nil =>
    intro t h p hp
    simp [walkListWith] at hp
  | cons hd tl ih =>
    obtain ⟨n, c⟩ := hd
    intro t h p hp
    simp only [walkListWith] at hp
    rcases List.mem_append.mp hp with h1 | h2
    · exact h n c (List.mem_cons_self _ _) t p h1
    · exact ih _ (fun n' c' hm => h n' c' (List.mem_cons_of_mem _ hm)) p h2

theorem walk_pages_dirname : ∀ (fuel : Nat) (env : Env) (tf ts : Nat) (dn : String) (d : FsDir) (t : Nat) (p : Page),
    p ∈ (walkRender env tf ts fuel dn d t).2.1 → p.dirname = dn ∨ dn.length < p.dirname.length := by
  intro fuel
  induction fuel with
  | zero =>
    intro env tf ts dn d t p hp
    simp [walkRender] at hp
  | succ fuel ih =>
    intro env tf ts dn d t p hp
    obtain ⟨files, subs⟩ := d
    simp only [walkRender] at hp
    have hlen : ∀ n : String, (dn ++ "/" ++ n).length = dn.length + 1 + n.length := by
      intro n
      rw [String.length_append, String.length_append]
      rfl
    by_cases hidx : "index.html" ∈ files.map Prod.fst
    · rw [if_pos hidx] at hp
      refine Or.inr ?_
      refine walkListWith_pages_all (P := fun q => dn.length < q.dirname.length) subs t ?_ p hp
      intro n c _ t' q hq
      rcases ih env tf ts (dn ++ "/" ++ n) c t' q hq with heq | hlt
      · rw [heq, hlen n]
        omega
      · rw [hlen n] at hlt
        omega
    · rw [if_neg hidx] at hp
      rcases List.mem_cons.mp hp with heq | hmem
      · exact Or.inl (by rw [heq]; rfl)
      · refine Or.inr ?_
        refine walkListWith_pages_all (P := fun q => dn.length < q.dirname.length) (pySortEntries subs) (t + 1) ?_ p hmem
        intro n c _ t' q hq
        rcases ih env tf ts (dn ++ "/" ++ n) c t' q hq with heq | hlt
        · rw [heq, hlen n]
          omega
        · rw [hlen n] at hlt
          omega

theorem walk_pages_fileRows : ∀ (fuel : Nat) (env : Env) (tf ts : Nat) (dn : String) (d : FsDir) (t : Nat) (p : Page),
    p ∈ (walkRender env tf ts fuel dn d t).2.1 → "index.html" ∉ p.fileRows := by
  intro fuel
  induction fuel with
  | zero =>
    intro env tf ts dn d t p hp
    simp [walkRender] at hp
  | succ fuel ih =>
    intro env tf ts dn d t p hp
    obtain ⟨files, subs⟩ := d
    simp only [walkRender] at hp
    by_cases hidx : "index.html" ∈ files.map Prod.fst
    · rw [if_pos hidx] at hp
      exact walkListWith_pages_all subs t (fun n c _ t' q hq => ih env tf ts (dn ++ "/" ++ n) c t' q hq) p hp
    · rw [if_neg hidx] at hp
      rcases List.mem_cons.mp hp with heq | hmem
      · rw [heq]
        intro hc
        exact hidx ((mem_pySort _ _).mp hc)
      · exact walkListWith_pages_all (pySortEntries subs) (t + 1)
          (fun n c _ t' q hq => ih env tf ts (dn ++ "/" ++ n) c t' q hq) p hmem

theorem walk_pages_footStr : ∀ (fuel : Nat) (env : Env) (tf ts : Nat) (dn : String) (d : FsDir) (t : Nat) (p : Page),
    p ∈ (walkRender env tf ts fuel dn d t).2.1 →
    ∃ k, p.footStr = get_template_foot env.foot (env.now k) tf ts := by
  intro fuel
  induction fuel with
  | zero =>
    intro env tf ts dn d t p hp
    simp [walkRender] at hp
  | succ fuel ih =>
    intro env tf ts dn d t p hp
    obtain ⟨files, subs⟩ := d
    simp only [walkRender] at hp
    by_cases hidx : "index.html" ∈ files.map Prod.fst
    · rw [if_pos hidx] at hp
      exact walkListWith_pages_all subs t (fun n c _ t' q hq => ih env tf ts (dn ++ "/" ++ n) c t' q hq) p hp
    · rw [if_neg hidx] at hp
      rcases List.mem_cons.mp hp with heq | hmem
      · exact ⟨t, by rw [heq]; rfl⟩
      · exact walkListWith_pages_all (pySortEntries subs) (t + 1)
          (fun n c _ t' q hq => ih env tf ts (dn ++ "/" ++ n) c t' q hq) p hmem

theorem walkListWith_allIndexed {w : String → FsDir → Nat → FsDir × List Page × Nat} {dn : String} :
    ∀ (l : List (String × FsDir)) (t : Nat),
      (∀ n c, (n, c) ∈ l → ∀ dn' t', allIndexed (w dn' c t').1 = true) →
      allIndexedList (walkListWith w dn l t).1 = true := by
  intro l
  induction l with
  | nil =>
    intro t h
    simp [walkListWith, allIndexedList]
  | cons hd tl ih =>
    obtain ⟨n, c⟩ := hd
    intro t h
    simp only [walkListWith, allIndexedList, Bool.and_eq_true]
    exact ⟨h n c (List.mem_cons_self _ _) _ _,
           ih _ (fun n' c' hm => h n' c' (List.mem_cons_of_mem _ hm))⟩

theorem walk_allIndexed : ∀ (fuel : Nat) (d : FsDir), d.height ≤ fuel →
    ∀ (env : Env) (tf ts : Nat) (dn : String) (t : Nat),
      allIndexed (walkRender env tf ts fuel dn d t).1 = true := by
  intro fuel
  induction fuel with
  | zero =>
    intro d h
    obtain ⟨files, subs⟩ := d
    simp only [FsDir.height] at h
    omega
  | succ fuel ih =>
    intro d h env tf ts dn t
    obtain ⟨files, subs⟩ := d
    simp only [FsDir.height] at h
    have hsub : ∀ n c, (n, c) ∈ subs → c.height ≤ fuel :=
      fun n c hm => by have := height_le_of_mem subs n c hm; omega
    simp only [walkRender]
    by_cases hidx : "index.html" ∈ files.map Prod.fst
    · rw [if_pos hidx]
      simp only [allIndexed, Bool.and_eq_true, decide_eq_true_eq]
      exact ⟨hidx, walkListWith_allIndexed subs t (fun n c hm dn' t' => ih c (hsub n c hm) env tf ts dn' t')⟩
    · rw [if_neg hidx]
      simp only [allIndexed, Bool.and_eq_true, decide_eq_true_eq]
      constructor
      · rw [List.map_append]
        exact List.mem_append_right _ (by simp)
      · exact walkListWith_allIndexed (pySortEntries subs) (t + 1)
          (fun n c hm dn' t' => ih c (hsub n c ((mem_pySortEntries (n, c) subs).mp hm)) env tf ts dn' t')

theorem walkListWith_identity {w : String → FsDir → Nat → FsDir × List Page × Nat} {dn : String} :
    ∀ (l : List (String × FsDir)) (t : Nat),
      (∀ n c, (n, c) ∈ l → allIndexed c = true → ∀ t', w (dn ++ "/" ++ n) c t' = (c, [], t')) →
      allIndexedList l = true → walkListWith w dn l t = (l, [], t) := by
  intro l
  induction l with
  | nil =>
    intro t _ _
    rfl
  | cons hd tl ih =>
    obtain ⟨n, c⟩ := hd
    intro t h hall
    simp only [allIndexedList, Bool.and_eq_true] at hall
    simp only [walkListWith]
    rw [h n c (List.mem_cons_self _ _) hall.1 t]
    rw [ih t (fun n' c' hm => h n' c' (List.mem_cons_of_mem _ hm)) hall.2]
    rfl

theorem walk_identity : ∀ (fuel : Nat) (env : Env) (tf ts : Nat) (dn : String) (d : FsDir) (t : Nat),
    allIndexed d = true → walkRender env tf ts fuel dn d t = (d, [], t) := by
  intro fuel
  induction fuel with
  | zero =>
    intro env tf ts dn d t _
    rfl
  | succ fuel ih =>
    intro env tf ts dn d t hall
    obtain ⟨files, subs⟩ := d
    simp only [allIndexed, Bool.and_eq_true, decide_eq_true_eq] at hall
    simp only [walkRender]
    rw [if_pos hall.1]
    rw [walkListWith_identity subs t (fun n c _ hc t' => ih env tf ts (dn ++ "/" ++ n) c t' hc) hall.2]

mutual
theorem totalsWalk_pruneIndex : ∀ d : FsDir, totalsWalk (pruneIndex d) = totalsWalk d
  | .mk files subs => by
    simp only [pruneIndex, totalsWalk, totalsList_pruneIndexList subs, List.filter_filter]
    simp

theorem totalsList_pruneIndexList : ∀ l : List (String × FsDir), totalsList (pruneIndexList l) = totalsList l
  | [] => rfl
  | (n, d) :: rest => by
    simp only [pruneIndexList, totalsList, totalsWalk_pruneIndex d, totalsList_pruneIndexList rest]
end

/-- C1: for every directory whose index.html already exists at the start of
rendering it, the renderer leaves its files untouched and writes no page into
it; consequently re-running the generator over an already generated tree
rewrites nothing: the tree is unchanged and no page at all is produced. -/
theorem C1_idempotence_by_skip :
    (∀ (env : Env) (tf ts fuel : Nat) (dn : String) (d : FsDir) (t : Nat),
        "index.html" ∈ d.files.map Prod.fst →
        (walkRender env tf ts fuel dn d t).1.files = d.files
          ∧ ∀ p ∈ (walkRender env tf ts fuel dn d t).2.1, p.dirname ≠ dn)
    ∧ ∀ (env env2 : Env) (tree : FsDir),
        run env2 (run env tree).1 = ((run env tree).1, [], 0) := by
  constructor
  · intro env tf ts fuel dn d t hidx
    match fuel with
    | 0 =>
      constructor
      · rfl
      · intro p hp
        simp [walkRender] at hp
    | fuel + 1 =>
      obtain ⟨files, subs⟩ := d
      simp only [FsDir.files] at hidx
      constructor
      · simp only [walkRender]
        rw [if_pos hidx]
        rfl
      · intro p hp
        simp only [walkRender] at hp
        rw [if_pos hidx] at hp
        have hlt : dn.length < p.dirname.length := by
          refine walkListWith_pages_all (P := fun q => dn.length < q.dirname.length) subs t ?_ p hp
          intro n c _ t' q hq
          have hlen : (dn ++ "/" ++ n).length = dn.length + 1 + n.length := by
            rw [String.length_append, String.length_append]
            rfl
          rcases walk_pages_dirname fuel env tf ts (dn ++ "/" ++ n) c t' q hq with heq | hl
          · rw [heq, hlen]
            omega
          · rw [hlen] at hl
            omega
        intro heq
        rw [heq] at hlt
        omega
  · intro env env2 tree
    have hall : allIndexed (run env tree).1 = true :=
      walk_allIndexed tree.height tree (le_refl _) env _ _ "." 0
    exact walk_identity _ env2 _ _ "." (run env tree).1 0 hall

set_option maxRecDepth 100000 in
theorem C1_witness :
    (walkRender tickingEnv 0 0 preIndexedTree.height "." preIndexedTree 0).1.files = preIndexedTree.files :=
  (C1_idempotence_by_skip.1 tickingEnv 0 0 preIndexedTree.height "." preIndexedTree 0 (by decide)).1

/-- C2 counterexample: a file named "INDEX.HTML" — matching index.html only
case-insensitively — is counted in the totals (1 file, 5 bytes) and rendered
as a file row, because the source compares with case-sensitive equality. -/
theorem C2_counterexample :
    totalsWalk upperIndexTree = (1, 5)
    ∧ ((run tickingEnv upperIndexTree).2.1.map Page.fileRows) = [["INDEX.HTML"]] :=
  ⟨rfl, rfl⟩

/-- C2 (amended): a file literally named "index.html" (case-sensitive) never
appears as a file row of any generated listing, and deleting every such file
from the tree leaves both components of the totals unchanged — the totals
never count it. -/
theorem C2_exclusion_amended :
    (∀ (env : Env) (tf ts fuel : Nat) (dn : String) (d : FsDir) (t : Nat) (p : Page),
        p ∈ (walkRender env tf ts fuel dn d t).2.1 → "index.html" ∉ p.fileRows)
    ∧ ∀ d : FsDir, totalsWalk (pruneIndex d) = totalsWalk d := by
  constructor
  · intro env tf ts fuel dn d t p hp
    exact walk_pages_fileRows fuel env tf ts dn d t p hp
  · exact totalsWalk_pruneIndex

set_option maxRecDepth 100000 in
theorem C2_witness :
    "index.html" ∉ ((run tickingEnv upperIndexTree).2.1.headD ⟨"", [], "", ""⟩).fileRows :=
  C2_exclusion_amended.1 tickingEnv 1 5 upperIndexTree.height "." upperIndexTree 0
    ((run tickingEnv upperIndexTree).2.1.headD ⟨"", [], "", ""⟩) (by decide)

/-- C9 counterexample: with a clock advancing one second per sample, one run
over a root and one subdirectory embeds two different build timestamps in the
two generated footers — the timestamp is sampled per generated directory, not
once at program start. -/
theorem C9_counterexample :
    ((run tickingEnv twoDirTree).2.1.map Page.footStr)
      = ["F:at 1970-01-01 00:00:00 UTC;0;0 B", "F:at 1970-01-01 00:00:01 UTC;0;0 B"]
    ∧ ("F:at 1970-01-01 00:00:00 UTC;0;0 B" : String) ≠ "F:at 1970-01-01 00:00:01 UTC;0;0 B" :=
  ⟨rfl, by decide⟩

/-- C9 (amended): each generated footer embeds a `datetime.now()` sample taken
when that directory's foot is rendered; all footers of one run agree exactly
when the clock does not advance between samples — for a constant clock every
two generated pages carry the same substituted foot string. -/
theorem C9_buildtime_amended :
    ∀ (env : Env), (∀ i j : Nat, env.now i = env.now j) →
      ∀ (tf ts fuel : Nat) (dn : String) (d : FsDir) (t : Nat) (p q : Page),
        p ∈ (walkRender env tf ts fuel dn d t).2.1 →
        q ∈ (walkRender env tf ts fuel dn d t).2.1 → p.footStr = q.footStr := by
  intro env hconst tf ts fuel dn d t p q hp hq
  obtain ⟨k, hk⟩ := walk_pages_footStr fuel env tf ts dn d t p hp
  obtain ⟨k', hk'⟩ := walk_pages_footStr fuel env tf ts dn d t q hq
  rw [hk, hk', hconst k k']

set_option maxRecDepth 100000 in
theorem C9_witness :
    ((run frozenEnv twoDirTree).2.1.headD ⟨"", [], "", ""⟩).footStr
      = ((run frozenEnv twoDirTree).2.1.getD 1 ⟨"", [], "", ""⟩).footStr :=
  C9_buildtime_amended frozenEnv (fun _ _ => rfl) 0 0 twoDirTree.height "." twoDirTree 0
    ((run frozenEnv twoDirTree).2.1.headD ⟨"", [], "", ""⟩)
    ((run frozenEnv twoDirTree).2.1.getD 1 ⟨"", [], "", ""⟩)
    (by decide) (by decide)
